import Mathlib

/-!
Shallow embedding of the PBR texture-generation core of the Fabrik repository
(`src/nani/src/utils/pbrGenerator.ts`).

Modelling conventions:
* A `Uint8ClampedArray` pixel buffer is embedded as a flat function `ℕ → ℚ`
  holding the RGBA samples at index `(y*width + x)*4 + channel`, and JS number
  arithmetic is idealised as exact rational arithmetic (the formulas of the
  generators are rational); the square root and the normalised normal vector
  live in `ℝ`.
* Each generator writes one RGBA quadruple per pixel; the output buffer is
  embedded as the function `(x y : ℕ) ↦ quadruple`, the functional rendering of
  the per-pixel write loop.
* The browser image decode (`Image`/canvas) is external to the core; it is
  embedded as an `Option DecodedImage` argument — `none` is a failed decode —
  and the resize arithmetic of `generatePBRTextures` is embedded separately.
-/

namespace Fabrik

/-- One RGBA sample quadruple, as returned by `getPixel`. -/
structure RGBA where
  r : ℚ
  g : ℚ
  b : ℚ
  a : ℚ
deriving DecidableEq

/-- Read the four channels at flat index `(y*width + x)*4` —
`getPixel(data, width, x, y)`. -/
def getPixel (data : ℕ → ℚ) (width x y : ℕ) : RGBA :=
  let idx := (y * width + x) * 4
  ⟨data idx, data (idx + 1), data (idx + 2), data (idx + 3)⟩

/-- Perceptual grayscale: `grayscale(r, g, b) = 0.299*r + 0.587*g + 0.114*b`. -/
def grayscale (r g b : ℚ) : ℚ :=
  0.299 * r + 0.587 * g + 0.114 * b

/-- Clamp a value: `clamp(value, min, max) = Math.max(min, Math.min(max,
value))`, generic in the ordered type exactly as the source reuses it for
values and coordinates. -/
def clamp {α : Type} [LinearOrder α] (value mn mx : α) : α :=
  max mn (min mx value)

/-- Luminance of the pixel at `(x, y)`: `grayscale` of its RGB channels. -/
def lumaAt (data : ℕ → ℚ) (width x y : ℕ) : ℚ :=
  let c := getPixel data width x y
  grayscale c.r c.g c.b

/-- The bounds test `nx >= 0 && nx < width && ny >= 0 && ny < height` guarding
neighbour reads in `generateAO` and `generateRoughness`. -/
def inBoundsB (width height : ℕ) (nx ny : ℤ) : Bool :=
  decide (0 ≤ nx ∧ nx < (width : ℤ) ∧ 0 ≤ ny ∧ ny < (height : ℤ))

/-- Offsets `-2..2` of the 5×5 AO window. -/
def range2 : List ℤ := [-2, -1, 0, 1, 2]

/-- Offsets `-1..1` of the 3×3 windows. -/
def range1 : List ℤ := [-1, 0, 1]

/-- The 5×5 window offset pairs `(dy, dx)`, in the iteration order of the
source's nested loops (`dy` outer, `dx` inner). -/
def window5 : List (ℤ × ℤ) :=
  range2.flatMap fun dy => range2.map fun dx => (dy, dx)

/-- The 3×3 window offset pairs `(dy, dx)`. -/
def window3 : List (ℤ × ℤ) :=
  range1.flatMap fun dy => range1.map fun dx => (dy, dx)

/-- One step of the AO accumulation loop: on an in-bounds neighbour, add
`|lum − lumaAt neighbour|` to `contrast` and `1` to `count`. -/
def aoStep (data : ℕ → ℚ) (width height : ℕ) (x y : ℕ) (lum : ℚ)
    (acc : ℚ × ℚ) (d : ℤ × ℤ) : ℚ × ℚ :=
  let nx := (x : ℤ) + d.2
  let ny := (y : ℤ) + d.1
  if inBoundsB width height nx ny then
    (acc.1 + |lum - lumaAt data width nx.toNat ny.toNat|, acc.2 + 1)
  else acc

/-- The AO generator `generateAO`: per pixel, average the absolute luminance
difference to the
in-bounds part of the 5×5 window, then
`aoValue = clamp(255 − avgContrast·intensity·2 − (255 − lum)·0.3, 0, 255)`,
written to R, G, B with alpha 255. -/
def generateAO (data : ℕ → ℚ) (width height : ℕ) (intensity : ℚ) :
    ℕ → ℕ → RGBA := fun x y =>
  let c := getPixel data width x y
  let lum := grayscale c.r c.g c.b
  let acc := window5.foldl (aoStep data width height x y lum) (0, 0)
  let avgContrast := acc.1 / acc.2
  let aoValue := clamp (255 - avgContrast * intensity * 2 - (255 - lum) * 0.3) 0 255
  ⟨aoValue, aoValue, aoValue, 255⟩

/-- The in-bounds offsets of a window centred at `(x, y)` — the subset of the
window the guarded loops actually visit. -/
def inWindow (width height x y : ℕ) (w : List (ℤ × ℤ)) : List (ℤ × ℤ) :=
  w.filter fun d => inBoundsB width height ((x : ℤ) + d.2) ((y : ℤ) + d.1)

/-- Mean absolute luminance difference between the centre `(x, y)` and the
in-bounds positions of the 5×5 window, the divisor being the count of included
positions — the claim's `avgContrast`. -/
def aoAvgContrast (data : ℕ → ℚ) (width height x y : ℕ) : ℚ :=
  let l := inWindow width height x y window5
  ((l.map fun d =>
      |lumaAt data width x y -
        lumaAt data width ((x : ℤ) + d.2).toNat ((y : ℤ) + d.1).toNat|).sum) /
    (l.length : ℚ)

/-- Mean over the in-bounds 3×3 window of `|ΔR|+|ΔG|+|ΔB|` against the centre
colour, the divisor being the count of included positions — the claim's
`avgVariance`. -/
def roughAvgVariance (data : ℕ → ℚ) (width height x y : ℕ) : ℚ :=
  let c := getPixel data width x y
  let l := inWindow width height x y window3
  ((l.map fun d =>
      let n := getPixel data width ((x : ℤ) + d.2).toNat ((y : ℤ) + d.1).toNat
      |c.r - n.r| + |c.g - n.g| + |c.b - n.b|).sum) / (l.length : ℚ)

/-- One step of the roughness accumulation loop: on an in-bounds neighbour, add
`|r−nr| + |g−ng| + |b−nb|` to `variance` and `1` to `count`. -/
def roughStep (data : ℕ → ℚ) (width height : ℕ) (x y : ℕ) (c : RGBA)
    (acc : ℚ × ℚ) (d : ℤ × ℤ) : ℚ × ℚ :=
  let nx := (x : ℤ) + d.2
  let ny := (y : ℤ) + d.1
  if inBoundsB width height nx ny then
    let n := getPixel data width nx.toNat ny.toNat
    (acc.1 + (|c.r - n.r| + |c.g - n.g| + |c.b - n.b|), acc.2 + 1)
  else acc

/-- The roughness generator `generateRoughness`: per pixel, average the summed
absolute channel deltas
over the in-bounds 3×3 window, then
`roughness = clamp(avgVariance·intensity·0.5 + (255 − lum)·0.3, 0, 255)`,
written to R, G, B with alpha 255. -/
def generateRoughness (data : ℕ → ℚ) (width height : ℕ) (intensity : ℚ) :
    ℕ → ℕ → RGBA := fun x y =>
  let c := getPixel data width x y
  let lum := grayscale c.r c.g c.b
  let acc := window3.foldl (roughStep data width height x y c) (0, 0)
  let avgVariance := acc.1 / acc.2
  let roughness := clamp (avgVariance * intensity * 0.5 + (255 - lum) * 0.3) 0 255
  ⟨roughness, roughness, roughness, 255⟩

/-- The claim's saturation: `(max − min) / max` over the RGB channels, defined
as `0` when the maximum channel is `0`. -/
def saturationOf (r g b : ℚ) : ℚ :=
  let mx := max r (max g b)
  let mn := min r (min g b)
  if mx = 0 then 0 else (mx - mn) / mx

/-- The metallic generator `generateMetallic`: per pixel,
`saturation = max === 0 ? 0 : (max − min)/max` and
`metallic = clamp(lum·intensity·(1 − saturation·0.5), 0, 255)`, written to
R, G, B with alpha 255. -/
def generateMetallic (data : ℕ → ℚ) (width height : ℕ) (intensity : ℚ) :
    ℕ → ℕ → RGBA := fun x y =>
  let c := getPixel data width x y
  let lum := grayscale c.r c.g c.b
  let mx := max c.r (max c.g c.b)
  let mn := min c.r (min c.g c.b)
  let saturation := if mx = 0 then 0 else (mx - mn) / mx
  let metallic := clamp (lum * intensity * (1 - saturation * 0.5)) 0 255
  ⟨metallic, metallic, metallic, 255⟩

/-- The horizontal Sobel kernel `[[-1,0,1],[-2,0,2],[-1,0,1]]`. -/
def SOBEL_X : List (List ℚ) := [[-1, 0, 1], [-2, 0, 2], [-1, 0, 1]]

/-- The vertical Sobel kernel `[[-1,-2,-1],[0,0,0],[1,2,1]]`. -/
def SOBEL_Y : List (List ℚ) := [[-1, -2, -1], [0, 0, 0], [1, 2, 1]]

/-- Kernel entry lookup `K[ky+1][kx+1]` for offsets `ky, kx ∈ {-1,0,1}`. -/
def kernelAt (k : List (List ℚ)) (ky kx : ℤ) : ℚ :=
  (k.getD (ky + 1).toNat []).getD (kx + 1).toNat 0

/-- Height field entry `heightMap[y*width + x] = grayscale(r,g,b) / 255`. -/
def heightMapAt (data : ℕ → ℚ) (width x y : ℕ) : ℚ :=
  lumaAt data width x y / 255

/-- One step of the Sobel loop: read the height at the edge-clamped coordinates
and accumulate it against both kernels. -/
def sobelStep (data : ℕ → ℚ) (width height : ℕ) (x y : ℕ)
    (acc : ℚ × ℚ) (k : ℤ × ℤ) : ℚ × ℚ :=
  let nx := clamp ((x : ℤ) + k.2) 0 ((width : ℤ) - 1)
  let ny := clamp ((y : ℤ) + k.1) 0 ((height : ℤ) - 1)
  let heightVal := heightMapAt data width nx.toNat ny.toNat
  (acc.1 + heightVal * kernelAt SOBEL_X k.1 k.2,
    acc.2 + heightVal * kernelAt SOBEL_Y k.1 k.2)

/-- The Sobel gradient pair `(dx, dy)` at a pixel, accumulated over the 3×3
kernel window in the source's loop order. -/
def sobelAt (data : ℕ → ℚ) (width height x y : ℕ) : ℚ × ℚ :=
  window3.foldl (sobelStep data width height x y) (0, 0)

/-- The height field sampled at edge-clamped coordinates — the claim's reading
of `heightMap[clamp(y+ky)·width + clamp(x+kx)]`. -/
def clampedHeight (data : ℕ → ℚ) (width height : ℕ) (cx cy : ℤ) : ℚ :=
  heightMapAt data width (clamp cx 0 ((width : ℤ) - 1)).toNat
    (clamp cy 0 ((height : ℤ) - 1)).toNat

/-- The claim's horizontal gradient: the height field convolved with
`[[-1,0,1],[-2,0,2],[-1,0,1]]` under edge-clamped sampling, written as the six
nonzero terms. -/
def sobelDxSpec (data : ℕ → ℚ) (width height x y : ℕ) : ℚ :=
  -clampedHeight data width height ((x : ℤ) - 1) ((y : ℤ) - 1) +
    clampedHeight data width height ((x : ℤ) + 1) ((y : ℤ) - 1) -
    2 * clampedHeight data width height ((x : ℤ) - 1) (y : ℤ) +
    2 * clampedHeight data width height ((x : ℤ) + 1) (y : ℤ) -
    clampedHeight data width height ((x : ℤ) - 1) ((y : ℤ) + 1) +
    clampedHeight data width height ((x : ℤ) + 1) ((y : ℤ) + 1)

/-- The claim's vertical gradient: the height field convolved with
`[[-1,-2,-1],[0,0,0],[1,2,1]]` under edge-clamped sampling, written as the six
nonzero terms. -/
def sobelDySpec (data : ℕ → ℚ) (width height x y : ℕ) : ℚ :=
  -clampedHeight data width height ((x : ℤ) - 1) ((y : ℤ) - 1) -
    2 * clampedHeight data width height (x : ℤ) ((y : ℤ) - 1) -
    clampedHeight data width height ((x : ℤ) + 1) ((y : ℤ) - 1) +
    clampedHeight data width height ((x : ℤ) - 1) ((y : ℤ) + 1) +
    2 * clampedHeight data width height (x : ℤ) ((y : ℤ) + 1) +
    clampedHeight data width height ((x : ℤ) + 1) ((y : ℤ) + 1)

/-- The pre-normalisation normal vector
`(normalX, normalY, normalZ) = (−dx·strength, −dy·strength, 1)`. -/
def normalPre (data : ℕ → ℚ) (width height : ℕ) (strength : ℚ) (x y : ℕ) :
    ℚ × ℚ × ℚ :=
  let g := sobelAt data width height x y
  (-g.1 * strength, -g.2 * strength, 1)

/-- Normalisation length
`len = Math.sqrt(normalX*normalX + normalY*normalY + normalZ*normalZ)`. -/
noncomputable def normalLen (data : ℕ → ℚ) (width height : ℕ) (strength : ℚ)
    (x y : ℕ) : ℝ :=
  let n := normalPre data width height strength x y
  Real.sqrt ((n.1 : ℝ) * (n.1 : ℝ) + (n.2.1 : ℝ) * (n.2.1 : ℝ) +
    (n.2.2 : ℝ) * (n.2.2 : ℝ))

/-- The normal generator `generateNormal`: per pixel, Sobel gradients of the
luminance height field,
vector `(−dx·strength, −dy·strength, 1)` normalised by `len`, each axis encoded
as `(v/len + 1)·0.5·255` into R, G, B with alpha 255. -/
noncomputable def generateNormal (data : ℕ → ℚ) (width height : ℕ)
    (strength : ℚ) : ℕ → ℕ → ℝ × ℝ × ℝ × ℝ := fun x y =>
  let n := normalPre data width height strength x y
  let len := normalLen data width height strength x y
  (((n.1 : ℝ) / len + 1) * 0.5 * 255,
    ((n.2.1 : ℝ) / len + 1) * 0.5 * 255,
    ((n.2.2 : ℝ) / len + 1) * 0.5 * 255, 255)

/-- Decode a stored normal-map channel back to an axis value:
`c ↦ c/255·2 − 1`, the inverse of the `(v + 1)·0.5·255` encoding. -/
noncomputable def decodeChannel (c : ℝ) : ℝ :=
  c / 255 * 2 - 1

/-- The dimension bound of the resize step, `maxSize = 1024`. -/
def maxSize : ℕ := 1024

/-- The resize arithmetic of `generatePBRTextures`: when either dimension
exceeds `maxSize`, scale both by `min(maxSize/width, maxSize/height)` and
floor; otherwise keep the native dimensions. -/
def resizeDims (width height : ℕ) : ℕ × ℕ :=
  if maxSize < width ∨ maxSize < height then
    let factor : ℚ := min ((maxSize : ℚ) / width) ((maxSize : ℚ) / height)
    ((⌊(width : ℚ) * factor⌋).toNat, (⌊(height : ℚ) * factor⌋).toNat)
  else (width, height)

/-- The four generation parameters. -/
structure PBROptions where
  aoIntensity : ℚ
  roughnessIntensity : ℚ
  metallicIntensity : ℚ
  normalStrength : ℚ
deriving DecidableEq

/-- A decoded, already resized source image: the pixel buffer the canvas
`getImageData` hands to the generators. -/
structure DecodedImage where
  width : ℕ
  height : ℕ
  data : ℕ → ℚ

/-- The error taxonomy of the pipeline. The source rejects with
`Error('Failed to load image')` from `img.onerror` — the spec's `LoadError` —
and rethrows any in-`try` failure. -/
inductive GenError where
  | LoadError
  | EncodeError
  | ProcessingError
deriving DecidableEq

/-- The five-map result: the `resolve({albedo, ao, roughness, metallic,
normal})` object. Every field is present by construction. -/
structure TextureSet where
  width : ℕ
  height : ℕ
  albedo : ℕ → ℕ → RGBA
  ao : ℕ → ℕ → RGBA
  roughness : ℕ → ℕ → RGBA
  metallic : ℕ → ℕ → RGBA
  normal : ℕ → ℕ → ℝ × ℝ × ℝ × ℝ

/-- The aggregator `generatePBRTextures`. The browser image load is embedded
as the `Option DecodedImage` argument — `none` is the `img.onerror` path,
which rejects with the load failure; on a successful decode all five maps are
produced together in one `resolve`. -/
noncomputable def generatePBRTextures (decoded : Option DecodedImage)
    (options : PBROptions) : Except GenError TextureSet :=
  match decoded with
  | none => Except.error GenError.LoadError
  | some img =>
    Except.ok
      { width := img.width
        height := img.height
        albedo := fun x y => getPixel img.data img.width x y
        ao := generateAO img.data img.width img.height options.aoIntensity
        roughness := generateRoughness img.data img.width img.height
          options.roughnessIntensity
        metallic := generateMetallic img.data img.width img.height
          options.metallicIntensity
        normal := generateNormal img.data img.width img.height
          options.normalStrength }

/-- A concrete 2×1 RGBA buffer: one black pixel followed by one white pixel. -/
def sampleData : ℕ → ℚ := fun i => if i < 4 then 0 else 255

/-- A concrete decoded 2×1 image over `sampleData`. -/
def sampleImage : DecodedImage := ⟨2, 1, sampleData⟩

/-- The default generation parameters of the UI
(ao 1, roughness 1, metallic 0.5, normal 1). -/
def sampleOptions : PBROptions := ⟨1, 1, 0.5, 1⟩

end Fabrik

namespace Fabrik

/-- A guarded accumulate-and-count fold equals the filtered sum paired with the
filtered length. -/
theorem foldl_guard_eq {α : Type} (p : α → Bool) (f : α → ℚ) (l : List α)
    (a b : ℚ) :
    l.foldl (fun acc d => if p d then (acc.1 + f d, acc.2 + 1) else acc) (a, b) =
      (a + ((l.filter p).map f).sum, b + (((l.filter p).length : ℕ) : ℚ)) := by
  induction l generalizing a b with
  | nil => simp
  | cons hd tl ih =>
    by_cases h : p hd
    · simp only [List.foldl_cons, h, if_pos, List.filter_cons_of_pos,
        List.map_cons, List.sum_cons, List.length_cons]
      rw [ih]
      simp only [Prod.mk.injEq]
      constructor <;> push_cast <;> ring
    · simp only [List.foldl_cons, h, if_neg, Bool.false_eq_true,
        not_false_iff, List.filter_cons_of_neg]
      rw [ih]

/-- The AO accumulation loop computes the filtered sum and count over the
window. -/
theorem ao_foldl_eq (data : ℕ → ℚ) (width height x y : ℕ) (lum : ℚ) :
    window5.foldl (aoStep data width height x y lum) (0, 0) =
      (((inWindow width height x y window5).map fun d =>
          |lum - lumaAt data width ((x : ℤ) + d.2).toNat ((y : ℤ) + d.1).toNat|).sum,
        (((inWindow width height x y window5).length : ℕ) : ℚ)) := by
  have h := foldl_guard_eq
    (fun d : ℤ × ℤ => inBoundsB width height ((x : ℤ) + d.2) ((y : ℤ) + d.1))
    (fun d : ℤ × ℤ =>
      |lum - lumaAt data width ((x : ℤ) + d.2).toNat ((y : ℤ) + d.1).toNat|)
    window5 0 0
  simpa [aoStep, inWindow] using h

/-- The roughness accumulation loop computes the filtered sum and count over
the window. -/
theorem rough_foldl_eq (data : ℕ → ℚ) (width height x y : ℕ) (c : RGBA) :
    window3.foldl (roughStep data width height x y c) (0, 0) =
      (((inWindow width height x y window3).map fun d =>
          let n := getPixel data width ((x : ℤ) + d.2).toNat ((y : ℤ) + d.1).toNat
          |c.r - n.r| + |c.g - n.g| + |c.b - n.b|).sum,
        (((inWindow width height x y window3).length : ℕ) : ℚ)) := by
  have h := foldl_guard_eq
    (fun d : ℤ × ℤ => inBoundsB width height ((x : ℤ) + d.2) ((y : ℤ) + d.1))
    (fun d : ℤ × ℤ =>
      let n := getPixel data width ((x : ℤ) + d.2).toNat ((y : ℤ) + d.1).toNat
      |c.r - n.r| + |c.g - n.g| + |c.b - n.b|)
    window3 0 0
  simpa [roughStep, inWindow] using h

/-- The AO generator's per-pixel output, written through the filtered window
mean `aoAvgContrast`. -/
theorem ao_pixel_eq (data : ℕ → ℚ) (width height : ℕ) (intensity : ℚ)
    (x y : ℕ) :
    generateAO data width height intensity x y =
      (let v := clamp (255 - aoAvgContrast data width height x y * intensity * 2 -
          (255 - lumaAt data width x y) * 0.3) 0 255
       ⟨v, v, v, 255⟩) := by
  simp only [generateAO, ao_foldl_eq, aoAvgContrast, lumaAt]

/-- C1: at every pixel `(x, y)` the AO generator writes into R, G and B the
value `clamp(255 − avgContrast·aoIntensity·2 − (255 − luma)·0.3, 0, 255)`,
where `avgContrast` is the mean absolute luminance difference to the in-bounds
part of the 5×5 window (out-of-bounds positions excluded from sum and divisor,
the divisor being the count of included positions), with alpha 255. -/
theorem ao_pixel_formula (data : ℕ → ℚ) (width height : ℕ) (intensity : ℚ)
    (x y : ℕ) :
    generateAO data width height intensity x y =
      (let v := clamp (255 - aoAvgContrast data width height x y * intensity * 2 -
          (255 - lumaAt data width x y) * 0.3) 0 255
       ⟨v, v, v, 255⟩) :=
  ao_pixel_eq data width height intensity x y

/-- C3: at every pixel `(x, y)` the roughness generator writes into R, G and B
the value `clamp(avgVariance·roughnessIntensity·0.5 + (255 − luma)·0.3, 0,
255)`, where `avgVariance` is the mean of `|ΔR|+|ΔG|+|ΔB|` against the centre
over the in-bounds part of the 3×3 window (out-of-bounds positions excluded
from sum and divisor, the divisor being the count of included positions), with
alpha 255. -/
theorem roughness_pixel_formula (data : ℕ → ℚ) (width height : ℕ)
    (intensity : ℚ) (x y : ℕ) :
    generateRoughness data width height intensity x y =
      (let v := clamp (roughAvgVariance data width height x y * intensity * 0.5 +
          (255 - lumaAt data width x y) * 0.3) 0 255
       ⟨v, v, v, 255⟩) := by
  simp only [generateRoughness, rough_foldl_eq, roughAvgVariance, lumaAt]

/-- C4: at every pixel the metallic generator writes into R, G and B the value
`clamp(luma·metallicIntensity·(1 − saturation·0.5), 0, 255)` with
`saturation = (max−min)/max` guarded to `0` when `max(R,G,B) = 0`, so the
division is never performed with a zero divisor; alpha is 255. -/
theorem metallic_pixel_formula (data : ℕ → ℚ) (width height : ℕ)
    (intensity : ℚ) (x y : ℕ) :
    generateMetallic data width height intensity x y =
      (let c := getPixel data width x y
       let v := clamp (lumaAt data width x y * intensity *
           (1 - saturationOf c.r c.g c.b * 0.5)) 0 255
       ⟨v, v, v, 255⟩) := by
  simp only [generateMetallic, saturationOf, lumaAt]

/-- The Sobel fold computes exactly the two six-term clamped convolutions. -/
theorem sobelAt_eq (data : ℕ → ℚ) (width height x y : ℕ) :
    sobelAt data width height x y =
      (sobelDxSpec data width height x y, sobelDySpec data width height x y) := by
  have hw : window3 =
      [(-1, -1), (-1, 0), (-1, 1), (0, -1), (0, 0), (0, 1),
        (1, -1), (1, 0), (1, 1)] := by decide
  have h2 : (2 : ℤ).toNat = 2 := rfl
  simp only [sobelAt, hw, List.foldl_cons, List.foldl_nil, sobelStep, kernelAt,
    SOBEL_X, SOBEL_Y]
  norm_num [sobelDxSpec, sobelDySpec, clampedHeight, Prod.mk.injEq,
    sub_eq_add_neg, h2]
  constructor <;> ring

/-- C2: at every pixel the normal generator takes the Sobel gradients `dx, dy`
of the luminance height field `luma/255` (edge-clamped sampling, kernels
`[[-1,0,1],[-2,0,2],[-1,0,1]]` and `[[-1,-2,-1],[0,0,0],[1,2,1]]`), forms
`(−dx·normalStrength, −dy·normalStrength, 1)`, divides by
`len = sqrt(nx²+ny²+nz²)` and encodes each axis `v` as `(v/len + 1)·0.5·255`
into R, G, B with alpha 255. -/
theorem normal_pixel_formula (data : ℕ → ℚ) (width height : ℕ) (strength : ℚ)
    (x y : ℕ) :
    generateNormal data width height strength x y =
      (let dx := sobelDxSpec data width height x y
       let dy := sobelDySpec data width height x y
       let nx : ℚ := -dx * strength
       let ny : ℚ := -dy * strength
       let nz : ℚ := 1
       let len : ℝ := Real.sqrt ((nx : ℝ) ^ 2 + (ny : ℝ) ^ 2 + (nz : ℝ) ^ 2)
       (((nx : ℝ) / len + 1) * 0.5 * 255, ((ny : ℝ) / len + 1) * 0.5 * 255,
         ((nz : ℝ) / len + 1) * 0.5 * 255, 255)) := by
  simp only [generateNormal, normalLen, normalPre, sobelAt_eq, ← pow_two]

/-- C8: decoding the generated normal map's R, G, B channels back through
`c ↦ c/255·2 − 1` yields a vector of Euclidean magnitude exactly `1` at every
pixel (exact-arithmetic model; the stored 8-bit quantisation is the
floating-point tolerance the claim allows). -/
theorem normal_decode_unit (data : ℕ → ℚ) (width height : ℕ) (strength : ℚ)
    (x y : ℕ) :
    (let o := generateNormal data width height strength x y
     Real.sqrt (decodeChannel o.1 ^ 2 + decodeChannel o.2.1 ^ 2 +
       decodeChannel o.2.2.1 ^ 2)) = 1 := by
  have hz : (normalPre data width height strength x y).2.2 = 1 := rfl
  set n := normalPre data width height strength x y with hn
  set a : ℝ := ((n.1 : ℚ) : ℝ) with ha
  set b : ℝ := ((n.2.1 : ℚ) : ℝ) with hb
  have hS : (0 : ℝ) < a * a + b * b + 1 := by
    nlinarith [mul_self_nonneg a, mul_self_nonneg b]
  have hlen : normalLen data width height strength x y =
      Real.sqrt (a * a + b * b + 1) := by
    simp only [normalLen, ← hn, ← ha, ← hb, hz]
    norm_num
  have hlpos : (0 : ℝ) < Real.sqrt (a * a + b * b + 1) := Real.sqrt_pos.mpr hS
  have hmul : Real.sqrt (a * a + b * b + 1) * Real.sqrt (a * a + b * b + 1) =
      a * a + b * b + 1 := Real.mul_self_sqrt hS.le
  have hdec : ∀ v : ℝ, decodeChannel ((v + 1) * 0.5 * 255) = v := by
    intro v
    simp only [decodeChannel]
    ring
  simp only [generateNormal, ← hn, hlen, hz, Rat.cast_one, hdec, ← ha, ← hb]
  have hne : Real.sqrt (a * a + b * b + 1) ≠ 0 := ne_of_gt hlpos
  have hfrac : (a / Real.sqrt (a * a + b * b + 1)) ^ 2 +
      (b / Real.sqrt (a * a + b * b + 1)) ^ 2 +
      ((1 : ℝ) / Real.sqrt (a * a + b * b + 1)) ^ 2 = 1 := by
    field_simp
    nlinarith [hmul]
  rw [hfrac, Real.sqrt_one]

/-- Monotonicity of `clamp` in its value argument. -/
theorem clamp_le_clamp {α : Type} [LinearOrder α] (mn mx : α) {v1 v2 : α}
    (h : v1 ≤ v2) : clamp v1 mn mx ≤ clamp v2 mn mx :=
  max_le_max le_rfl (min_le_min le_rfl h)

/-- The AO window average is a mean of absolute values, hence nonnegative. -/
theorem aoAvgContrast_nonneg (data : ℕ → ℚ) (width height x y : ℕ) :
    0 ≤ aoAvgContrast data width height x y := by
  unfold aoAvgContrast
  apply div_nonneg
  · apply List.sum_nonneg
    intro q hq
    simp only [List.mem_map] at hq
    obtain ⟨d, _, rfl⟩ := hq
    exact abs_nonneg _
  · positivity

/-- The centre offset `(0, 0)` survives the bounds filter whenever the centre
pixel is itself in bounds. -/
theorem center_mem_inWindow (width height x y : ℕ) (hx : x < width)
    (hy : y < height) (w : List (ℤ × ℤ)) (hw : ((0 : ℤ), (0 : ℤ)) ∈ w) :
    ((0 : ℤ), (0 : ℤ)) ∈ inWindow width height x y w := by
  simp only [inWindow, List.mem_filter]
  refine ⟨hw, ?_⟩
  simp only [inBoundsB, decide_eq_true_eq]
  omega

/-- The length `len` is the square root of `normalX² + normalY² + 1`. -/
theorem normalLen_eq (data : ℕ → ℚ) (width height : ℕ) (strength : ℚ)
    (x y : ℕ) :
    normalLen data width height strength x y =
      Real.sqrt
        ((((normalPre data width height strength x y).1 : ℚ) : ℝ) *
            (((normalPre data width height strength x y).1 : ℚ) : ℝ) +
          (((normalPre data width height strength x y).2.1 : ℚ) : ℝ) *
            (((normalPre data width height strength x y).2.1 : ℚ) : ℝ) + 1) := by
  have hz : (normalPre data width height strength x y).2.2 = 1 := rfl
  simp only [normalLen, hz, Rat.cast_one, mul_one]

/-- C5: dimensions at most 1024 are kept; otherwise both dimensions are scaled
by `min(1024/width, 1024/height)` and floored; in particular 2048×1024 resizes
to 1024×512 and 512×256 stays 512×256. -/
theorem resize_dims_rule (width height : ℕ) (hw : 1 ≤ width) (hh : 1 ≤ height) :
    ((width ≤ maxSize ∧ height ≤ maxSize) →
      resizeDims width height = (width, height)) ∧
    ((maxSize < width ∨ maxSize < height) →
      resizeDims width height =
        ((⌊(width : ℚ) * min ((maxSize : ℚ) / width) ((maxSize : ℚ) / height)⌋).toNat,
          (⌊(height : ℚ) * min ((maxSize : ℚ) / width) ((maxSize : ℚ) / height)⌋).toNat)) ∧
    resizeDims 2048 1024 = (1024, 512) ∧ resizeDims 512 256 = (512, 256) := by
  refine ⟨?_, ?_, ?_, ?_⟩
  · rintro ⟨h1, h2⟩
    simp only [resizeDims]
    rw [if_neg (not_or.mpr ⟨not_lt.mpr h1, not_lt.mpr h2⟩)]
  · intro h
    simp only [resizeDims]
    rw [if_pos h]
  · norm_num [resizeDims, maxSize]
    omega
  · norm_num [resizeDims, maxSize]

/-- C5 witness: the branches of `resize_dims_rule` applied to the concrete
2048×1024 input give the claimed 1024×512. -/
theorem resize_dims_rule_witness : resizeDims 2048 1024 = (1024, 512) :=
  (resize_dims_rule 2048 1024 (by norm_num) (by norm_num)).2.2.1

/-- C6: a failed decode yields exactly `LoadError`, and a successful decode
yields one `Except.ok` carrying all five maps together — the result is always
a complete texture set or a single typed failure, never a partial subset. -/
theorem generation_atomic (decoded : Option DecodedImage)
    (options : PBROptions) :
    (decoded = none →
      generatePBRTextures decoded options = Except.error GenError.LoadError) ∧
    (∀ img : DecodedImage, decoded = some img →
      generatePBRTextures decoded options = Except.ok
        { width := img.width
          height := img.height
          albedo := fun x y => getPixel img.data img.width x y
          ao := generateAO img.data img.width img.height options.aoIntensity
          roughness := generateRoughness img.data img.width img.height
            options.roughnessIntensity
          metallic := generateMetallic img.data img.width img.height
            options.metallicIntensity
          normal := generateNormal img.data img.width img.height
            options.normalStrength }) := by
  constructor
  · rintro rfl
    rfl
  · rintro img rfl
    rfl

/-- C6 witness: on a failed decode with the default parameters the pipeline
returns `LoadError`. -/
theorem generation_atomic_witness :
    generatePBRTextures none sampleOptions = Except.error GenError.LoadError :=
  (generation_atomic none sampleOptions).1 rfl

/-- C7: the pipeline is deterministic and stateless — two invocations on the
same pixel buffer (same samples, width, height) with the same four generation
parameters produce identical texture sets. -/
theorem generation_deterministic (d1 d2 : ℕ → ℚ) (w1 w2 h1 h2 : ℕ)
    (o1 o2 : PBROptions) (hd : d1 = d2) (hw : w1 = w2) (hh : h1 = h2)
    (ho : o1 = o2) :
    generatePBRTextures (some ⟨w1, h1, d1⟩) o1 =
      generatePBRTextures (some ⟨w2, h2, d2⟩) o2 := by
  subst hd
  subst hw
  subst hh
  subst ho
  rfl

/-- C7 witness: two runs on the concrete 2×1 sample image with the default
parameters coincide. -/
theorem generation_deterministic_witness :
    generatePBRTextures (some ⟨2, 1, sampleData⟩) sampleOptions =
      generatePBRTextures (some ⟨2, 1, sampleData⟩) sampleOptions :=
  generation_deterministic sampleData sampleData 2 2 1 1 sampleOptions
    sampleOptions rfl rfl rfl rfl

/-- C9: at a pixel of nonzero local contrast the AO output is antitone in
`aoIntensity` — raising the intensity never raises the written value, in any
of the three channels. -/
theorem ao_antitone_aoIntensity (data : ℕ → ℚ) (width height x y : ℕ)
    {a1 a2 : ℚ} (hc : aoAvgContrast data width height x y ≠ 0)
    (h12 : a1 ≤ a2) :
    (generateAO data width height a2 x y).r ≤
        (generateAO data width height a1 x y).r ∧
      (generateAO data width height a2 x y).g ≤
        (generateAO data width height a1 x y).g ∧
      (generateAO data width height a2 x y).b ≤
        (generateAO data width height a1 x y).b := by
  have hA := aoAvgContrast_nonneg data width height x y
  have key : clamp (255 - aoAvgContrast data width height x y * a2 * 2 -
      (255 - lumaAt data width x y) * 0.3) 0 255 ≤
      clamp (255 - aoAvgContrast data width height x y * a1 * 2 -
      (255 - lumaAt data width x y) * 0.3) 0 255 := by
    apply clamp_le_clamp
    nlinarith
  simp only [ao_pixel_eq]
  exact ⟨key, key, key⟩

/-- C9 witness: on the black/white 2×1 sample the contrast at `(0,0)` is
nonzero and intensity 2 darkens AO at least as much as intensity 1. -/
theorem ao_antitone_aoIntensity_witness :
    (generateAO sampleData 2 1 2 0 0).r ≤ (generateAO sampleData 2 1 1 0 0).r ∧
      (generateAO sampleData 2 1 2 0 0).g ≤
        (generateAO sampleData 2 1 1 0 0).g ∧
      (generateAO sampleData 2 1 2 0 0).b ≤
        (generateAO sampleData 2 1 1 0 0).b :=
  @ao_antitone_aoIntensity sampleData 2 1 0 0 1 2
    (by
      have hl : inWindow 2 1 0 0 window5 =
          [((0 : ℤ), (0 : ℤ)), ((0 : ℤ), (1 : ℤ))] := by decide
      norm_num [aoAvgContrast, hl, lumaAt, getPixel, grayscale, sampleData])
    (by norm_num)

/-- C10: no division in the pipeline has a zero divisor — for an in-bounds
pixel the AO and roughness averaging counts are at least 1 (the window always
contains the centre), and the normal-map normalisation length is at least 1
(its z-component is the constant 1), so every output value is well defined. -/
theorem no_zero_divisor (data : ℕ → ℚ) (width height x y : ℕ) (strength : ℚ)
    (hx : x < width) (hy : y < height) :
    (1 : ℚ) ≤ (window5.foldl
        (aoStep data width height x y (lumaAt data width x y)) (0, 0)).2 ∧
      (1 : ℚ) ≤ (window3.foldl
        (roughStep data width height x y (getPixel data width x y)) (0, 0)).2 ∧
      (1 : ℝ) ≤ normalLen data width height strength x y := by
  refine ⟨?_, ?_, ?_⟩
  · simp only [ao_foldl_eq]
    have hmem := center_mem_inWindow width height x y hx hy window5 (by decide)
    have hpos : 0 < (inWindow width height x y window5).length :=
      List.length_pos.mpr (List.ne_nil_of_mem hmem)
    exact_mod_cast hpos
  · simp only [rough_foldl_eq]
    have hmem := center_mem_inWindow width height x y hx hy window3 (by decide)
    have hpos : 0 < (inWindow width height x y window3).length :=
      List.length_pos.mpr (List.ne_nil_of_mem hmem)
    exact_mod_cast hpos
  · rw [normalLen_eq]
    have h1 : (1 : ℝ) ≤
        (((normalPre data width height strength x y).1 : ℚ) : ℝ) *
            (((normalPre data width height strength x y).1 : ℚ) : ℝ) +
          (((normalPre data width height strength x y).2.1 : ℚ) : ℝ) *
            (((normalPre data width height strength x y).2.1 : ℚ) : ℝ) + 1 := by
      nlinarith [mul_self_nonneg
          ((((normalPre data width height strength x y).1 : ℚ) : ℝ)),
        mul_self_nonneg
          ((((normalPre data width height strength x y).2.1 : ℚ) : ℝ))]
    calc (1 : ℝ) = Real.sqrt 1 := Real.sqrt_one.symm
      _ ≤ _ := Real.sqrt_le_sqrt h1

/-- C10 witness: the divisor bounds hold at pixel `(0,0)` of the concrete 2×1
sample image. -/
theorem no_zero_divisor_witness :
    (1 : ℚ) ≤ (window5.foldl
        (aoStep sampleData 2 1 0 0 (lumaAt sampleData 2 0 0)) (0, 0)).2 ∧
      (1 : ℚ) ≤ (window3.foldl
        (roughStep sampleData 2 1 0 0 (getPixel sampleData 2 0 0)) (0, 0)).2 ∧
      (1 : ℝ) ≤ normalLen sampleData 2 1 1 0 0 :=
  no_zero_divisor sampleData 2 1 0 0 1 (by decide) (by decide)

end Fabrik
